import Mathlib

/-!
Shallow embedding of the progress/completion state model of the LMS backend:
the lesson-progress methods of the `Progress` mongoose schema
(`backend/models/Instructor.js`, second schema in the file), the enrollment
methods of `backend/models/Enrollment.js`, the quiz-grading and explicit
status-update branches of the `updateLessonProgress` controller, and the
`generateCertificate` controller.

Machine numbers of the JavaScript source (watch-time seconds, scores,
percentages, timestamps in milliseconds) are modelled as `Nat`; the source
only ever handles non-negative values for these fields.  `Math.round` on the
non-negative rationals produced by the source is modelled exactly as
round-half-up on `Nat` (`jsRound`), and the JavaScript `x || d` idiom for
defaulting an absent-or-zero numeric field is modelled by `jsOr`.
-/

namespace LMS

/-- Models the JavaScript idiom `x || d` on an optional numeric field:
`undefined` and `0` are falsy, so both fall back to the default `d`. -/
def jsOr (x : Option Nat) (d : Nat) : Nat :=
  match x with
  | none => d
  | some n => if n = 0 then d else n

/-- `Math.round (num / den)` for non-negative `num`, `den` (round half
towards `+∞`, which on non-negative inputs is round half up):
`⌊num / den + 1 / 2⌋ = (2 * num + den) / (2 * den)` in integer division. -/
def jsRound (num den : Nat) : Nat :=
  (2 * num + den) / (2 * den)

/-- Lesson status enum of the progress schema:
`['not-started', 'in-progress', 'completed']`. -/
inductive LStatus
  | notStarted
  | inProgress
  | completed
deriving DecidableEq, Repr

/-- Lesson type enum of the lesson schema:
`['video', 'text', 'quiz', 'assignment', 'live']`. -/
inductive LessonType
  | video
  | text
  | quiz
  | assignment
  | live
deriving DecidableEq, Repr

/-- The `correctAnswer` field of a quiz question is `Mixed`: a single
value or an array of values (`answer` in a submission has the same shape). -/
inductive AnswerValue
  | single (s : String)
  | multiple (vs : List String)
deriving DecidableEq, Repr

/-- A quiz question of the catalog lesson (`content.quiz.questions[i]`):
`points` defaults to 1 when unset or zero (`q.points || 1`). -/
structure QuizQuestion where
  points : Option Nat
  correctAnswer : AnswerValue
deriving DecidableEq, Repr

/-- Catalog lesson data consumed by the progress tracker: `type`,
`content.video.duration` (0 models an absent/falsy duration),
`requiredWatchTime` percentage (`|| 80` in the source),
`content.quiz.questions` and `content.quiz.passingScore` (`|| 70`). -/
structure CatalogLesson where
  type : LessonType
  videoDuration : Nat
  requiredWatchTime : Option Nat
  quizQuestions : List QuizQuestion
  passingScore : Option Nat
deriving DecidableEq, Repr

/-- One graded answer entry produced by the `updateLessonProgress`
controller (`questionId` omitted: it is an opaque id copied through). -/
structure GradedAnswer where
  answer : AnswerValue
  isCorrect : Bool
  points : Nat
deriving DecidableEq, Repr

/-- One entry of `quiz.attempts` in the progress schema. -/
structure QuizAttempt where
  attemptNumber : Nat
  answers : List GradedAnswer
  score : Nat
  percentage : Nat
  completedAt : Nat
  timeSpent : Nat
deriving DecidableEq, Repr

/-- The `quiz` sub-document of the progress schema. -/
structure QuizState where
  attempts : List QuizAttempt
  highestScore : Nat
  bestAttempt : Option Nat
  passed : Bool
deriving DecidableEq, Repr

/-- A bookmark entry (`bookmarks[i]`). -/
structure Bookmark where
  timestamp : Nat
  note : String
deriving DecidableEq, Repr

/-- A note entry (`notes[i]`). -/
structure LessonNote where
  content : String
  timestamp : Option Nat
  isPrivate : Bool
  updatedAt : Option Nat
deriving DecidableEq, Repr

/-- The per-(user, lesson) progress document (fields the tracked methods
read or write).  `completedAt : Option Nat` models the nullable `Date`. -/
structure LessonProgress where
  status : LStatus
  watchTime : Nat
  totalWatchTime : Nat
  completionPercentage : Nat
  completedAt : Option Nat
  lastAccessedAt : Nat
  bookmarks : List Bookmark
  notes : List LessonNote
  quiz : QuizState
deriving DecidableEq, Repr

/-- Schema defaults of a freshly created progress document. -/
def LessonProgress.fresh (now : Nat) : LessonProgress :=
  { status := .notStarted
    watchTime := 0
    totalWatchTime := 0
    completionPercentage := 0
    completedAt := none
    lastAccessedAt := now
    bookmarks := []
    notes := []
    quiz := { attempts := [], highestScore := 0, bestAttempt := none, passed := false } }

/-- `progressSchema.methods.updateWatchTime(seconds)`:
`watchTime = max(watchTime, seconds)`, `totalWatchTime += seconds`; for a
video lesson with truthy duration, `completionPercentage =
min(round(watchTime / duration * 100), 100)`, then mark completed when the
percentage reaches `lesson.requiredWatchTime || 80` (only if not already
completed), else move `not-started` to `in-progress` when the percentage is
positive.  The trailing `save()` fires the pre-save hook that refreshes
`lastAccessedAt`; `now` is the current time passed in explicitly. -/
def updateWatchTime (lesson : CatalogLesson) (p : LessonProgress)
    (seconds : Nat) (now : Nat) : LessonProgress :=
  let p1 : LessonProgress :=
    { p with
      watchTime := max p.watchTime seconds
      totalWatchTime := p.totalWatchTime + seconds
      lastAccessedAt := now }
  if lesson.type = LessonType.video ∧ lesson.videoDuration ≠ 0 then
    let percentage := min (jsRound (p1.watchTime * 100) lesson.videoDuration) 100
    let p2 := { p1 with completionPercentage := percentage }
    if percentage ≥ jsOr lesson.requiredWatchTime 80 ∧ p2.status ≠ LStatus.completed then
      { p2 with status := .completed, completedAt := some now }
    else if percentage > 0 ∧ p2.status = LStatus.notStarted then
      { p2 with status := .inProgress }
    else
      p2
  else
    p1

/-- `totalPossibleScore = questions.reduce((total, q) => total + (q.points || 1), 0)`. -/
def totalPossibleScore (questions : List QuizQuestion) : Nat :=
  questions.foldl (fun total q => total + jsOr q.points 1) 0

/-- `progressSchema.methods.recordQuizAttempt(answers, score, timeSpent)`:
appends an attempt numbered `attempts.length + 1` with
`percentage = round(score / totalPossibleScore * 100)`, raises
`highestScore` / `bestAttempt` only on a strictly higher score, sets
`passed = percentage >= (passingScore || 70)` from this attempt alone; on a
pass forces `status = completed`, `completedAt = now`,
`completionPercentage = 100`; on a fail from `not-started` moves to
`in-progress` with `completionPercentage = min(percentage, 99)`. -/
def recordQuizAttempt (lesson : CatalogLesson) (p : LessonProgress)
    (answers : List GradedAnswer) (score : Nat) (timeSpent : Nat) (now : Nat) :
    LessonProgress :=
  let attemptNumber := p.quiz.attempts.length + 1
  let percentage := jsRound (score * 100) (totalPossibleScore lesson.quizQuestions)
  let attempt : QuizAttempt :=
    { attemptNumber := attemptNumber
      answers := answers
      score := score
      percentage := percentage
      completedAt := now
      timeSpent := timeSpent }
  let q1 := { p.quiz with attempts := p.quiz.attempts ++ [attempt] }
  let q2 :=
    if score > q1.highestScore then
      { q1 with highestScore := score, bestAttempt := some attemptNumber }
    else
      q1
  let passingScore := jsOr lesson.passingScore 70
  let q3 := { q2 with passed := percentage ≥ passingScore }
  let p1 := { p with quiz := q3, lastAccessedAt := now }
  if q3.passed then
    { p1 with status := .completed, completedAt := some now, completionPercentage := 100 }
  else if p1.status = LStatus.notStarted then
    { p1 with status := .inProgress, completionPercentage := min percentage 99 }
  else
    p1

/-- `progressSchema.methods.addBookmark(timestamp, note)`: pushes an entry
and saves (pre-save hook refreshes `lastAccessedAt`). -/
def addBookmark (p : LessonProgress) (timestamp : Nat) (note : String)
    (now : Nat) : LessonProgress :=
  { p with
    bookmarks := p.bookmarks ++ [{ timestamp := timestamp, note := note }]
    lastAccessedAt := now }

/-- `progressSchema.methods.addNote(content, timestamp, isPrivate)`: pushes
an entry and saves. -/
def addNote (p : LessonProgress) (content : String) (timestamp : Option Nat)
    (isPrivate : Bool) (now : Nat) : LessonProgress :=
  { p with
    notes := p.notes ++
      [{ content := content, timestamp := timestamp, isPrivate := isPrivate, updatedAt := none }]
    lastAccessedAt := now }

/-- The explicit status-update branch of the `updateLessonProgress`
controller: `progress.status = status; if (status === 'completed') also set
completedAt and completionPercentage = 100`, then save. -/
def updateLessonProgressStatus (p : LessonProgress) (status : LStatus)
    (now : Nat) : LessonProgress :=
  let p1 := { p with status := status, lastAccessedAt := now }
  if status = LStatus.completed then
    { p1 with completedAt := some now, completionPercentage := 100 }
  else
    p1

/-- Models `JSON.stringify(submitted) === JSON.stringify(correct)` in the
quiz-grading branch of `updateLessonProgress`.  `JSON.stringify` is an
injective encoding of the single-value / value-list answer shapes stored
here (array elements are kept in order and quoted with escaping), so
stringify-equality is structural equality, order of list elements
included. -/
def answersEqual (submitted correct : AnswerValue) : Bool :=
  submitted == correct

/-- The quiz-grading loop of `updateLessonProgress`: pairs each submitted
answer with the question at the same index and marks it correct exactly
when `JSON.stringify` equality holds, awarding `question.points || 1`. -/
def gradeAnswersList : List QuizQuestion → List AnswerValue → List GradedAnswer
  | q :: qs, a :: as =>
      let isCorrect := answersEqual a q.correctAnswer
      { answer := a
        isCorrect := isCorrect
        points := if isCorrect then jsOr q.points 1 else 0 } :: gradeAnswersList qs as
  | _, _ => []

/-- The `score` accumulated by the grading loop: the sum of the points of
the correctly answered questions. -/
def quizScore (questions : List QuizQuestion) (submitted : List AnswerValue) : Nat :=
  (gradeAnswersList questions submitted).foldl (fun total g => total + g.points) 0

/-- Enrollment status enum: `['active', 'completed', 'dropped', 'suspended']`. -/
inductive EStatus
  | active
  | completed
  | dropped
  | suspended
deriving DecidableEq, Repr

/-- One entry of `progress.completedLessons` in the enrollment schema.
Lesson ids are opaque; `Nat` stands in for the ObjectId. -/
structure CompletedLesson where
  lesson : Nat
  completedAt : Nat
  watchTime : Nat
  score : Option Nat
deriving DecidableEq, Repr

/-- The per-(student, course) enrollment document (fields the tracked
methods read or write). -/
structure Enrollment where
  status : EStatus
  completedLessons : List CompletedLesson
  currentLesson : Option Nat
  completionPercentage : Nat
  lastAccessedAt : Nat
  completionDate : Option Nat
  certificateIssued : Bool
  certificateId : Option String
deriving DecidableEq, Repr

/-- `enrollmentSchema.methods.updateProgress()`: with `totalLessons` the
count of published lessons of the course (a catalog input), when positive
recomputes `completionPercentage = round(completedLessons.length /
totalLessons * 100)`, transitions `active → completed` (setting
`completionDate`) when the percentage reaches 100, and refreshes
`lastAccessedAt`; when `totalLessons = 0` nothing is written. -/
def updateProgress (e : Enrollment) (totalLessons : Nat) (now : Nat) : Enrollment :=
  if totalLessons > 0 then
    let completedCount := e.completedLessons.length
    let pct := jsRound (completedCount * 100) totalLessons
    let e1 := { e with completionPercentage := pct }
    let e2 :=
      if pct ≥ 100 ∧ e1.status = EStatus.active then
        { e1 with status := .completed, completionDate := some now }
      else
        e1
    { e2 with lastAccessedAt := now }
  else
    e

/-- `enrollmentSchema.methods.markLessonCompleted(lessonId, watchTime,
score)`: a no-op when `lessonId` is already in `completedLessons`;
otherwise pushes a completion entry, points `currentLesson` at the
catalog's next lesson after `lessonId` when there is one (`nextLesson` is
the catalog input `currentLesson.getNextLesson()` resolves to), and runs
`updateProgress`. -/
def markLessonCompleted (e : Enrollment) (lessonId : Nat) (watchTime : Nat)
    (score : Option Nat) (nextLesson : Option Nat) (totalLessons : Nat)
    (now : Nat) : Enrollment :=
  if e.completedLessons.any (fun cl => cl.lesson = lessonId) then
    e
  else
    let e1 :=
      { e with
        completedLessons := e.completedLessons ++
          [{ lesson := lessonId, completedAt := now, watchTime := watchTime, score := score }] }
    let e2 :=
      match nextLesson with
      | some nl => { e1 with currentLesson := some nl }
      | none => e1
    updateProgress e2 totalLessons now

/-- `enrollmentSchema.methods.generateCertificate()`: only when
`status === 'completed'` and `certificateIssued` is still false, assigns
`certificateId` and flips `certificateIssued`, returning the id; otherwise
returns `null` and changes nothing.  `nowMs` is `Date.now()` and
`enrollmentId` the document's `_id` string. -/
def mkCertificateId (nowMs : Nat) (enrollmentId : String) : String :=
  "CERT-" ++ toString nowMs ++ "-" ++ enrollmentId

def generateCertificate (e : Enrollment) (enrollmentId : String) (nowMs : Nat) :
    Enrollment × Option String :=
  if e.status = EStatus.completed ∧ e.certificateIssued = false then
    let cid := mkCertificateId nowMs enrollmentId
    ({ e with certificateId := some cid, certificateIssued := true }, some cid)
  else
    (e, none)

/-- Outcome reported by the certificate endpoint. -/
inductive CertResult
  | notCompleted
  | notEnabled
  | alreadyIssued
  | issued (cid : String)
deriving DecidableEq, Repr

/-- The `generateCertificate` controller (`POST
/api/enrollments/:id/certificate`): rejects before touching the enrollment
unless `status === 'completed'` and `course.certificate.enabled`; then
calls the `generateCertificate` method and maps its `null` return to the
already-issued error response. -/
def generateCertificateEndpoint (e : Enrollment) (certEnabled : Bool)
    (enrollmentId : String) (nowMs : Nat) : Enrollment × CertResult :=
  if e.status ≠ EStatus.completed then
    (e, .notCompleted)
  else if certEnabled = false then
    (e, .notEnabled)
  else
    match generateCertificate e enrollmentId nowMs with
    | (e2, some cid) => (e2, .issued cid)
    | (e2, none) => (e2, .alreadyIssued)

/-- Value of a JavaScript `Math.max(...)` over timestamps: with no
arguments `Math.max()` is `-Infinity`. -/
inductive JsMaxVal
  | negInf
  | val (n : Nat)
deriving DecidableEq, Repr

/-- `Math.max(...xs)` over a (possibly empty) spread of timestamps. -/
def jsMaxList : List Nat → JsMaxVal
  | [] => .negInf
  | x :: xs =>
      match jsMaxList xs with
      | .negInf => .val x
      | .val m => .val (max x m)

/-- Return shape of `progressSchema.statics.getUserCourseProgress`
(`progressData` itself is echoed back unchanged and omitted here). -/
structure UserCourseProgressSummary where
  totalLessons : Nat
  completedLessons : Nat
  overallProgress : Nat
  lastAccessedAt : JsMaxVal
deriving DecidableEq, Repr

/-- `progressSchema.statics.getUserCourseProgress(userId, courseId)`:
`totalLessons` is the published-lesson count of the course,
`completedLessons` counts progress records with status `completed`,
`overallProgress = round(completed / total * 100)` when the course has
lessons and 0 otherwise, and `lastAccessedAt =
Math.max(...progressData.map(p => p.lastAccessedAt.getTime()))`. -/
def getUserCourseProgress (publishedLessons : Nat)
    (progressData : List LessonProgress) : UserCourseProgressSummary :=
  let totalLessons := publishedLessons
  let completedLessons :=
    (progressData.filter (fun p => p.status = LStatus.completed)).length
  let overallProgress :=
    if totalLessons > 0 then jsRound (completedLessons * 100) totalLessons else 0
  { totalLessons := totalLessons
    completedLessons := completedLessons
    overallProgress := overallProgress
    lastAccessedAt := jsMaxList (progressData.map (fun p => p.lastAccessedAt)) }

/-- The list of states observed after each call of a sequence of
`updateWatchTime` calls on the same progress record; each call carries the
reported seconds and the wall-clock time of the call. -/
def watchTrace (lesson : CatalogLesson) (p : LessonProgress) :
    List (Nat × Nat) → List LessonProgress
  | [] => []
  | (s, n) :: rest =>
      let p2 := updateWatchTime lesson p s n
      p2 :: watchTrace lesson p2 rest

/-- The documented invariant of a lesson-progress record: `completedAt` is
set exactly when the status is `completed`, the accumulated total watch
time bounds the high-water mark, and the quiz attempts are numbered
`1, 2, …` in order. -/
def ProgressInv (p : LessonProgress) : Prop :=
  (p.completedAt ≠ none ↔ p.status = LStatus.completed)
  ∧ p.watchTime ≤ p.totalWatchTime
  ∧ ∀ i (h : i < p.quiz.attempts.length), (p.quiz.attempts.get ⟨i, h⟩).attemptNumber = i + 1

/-! ### Concrete fixtures shared by witnesses and counterexamples -/

/-- A catalog video lesson of 100 seconds with the default required-watch
threshold. -/
def exVideoLesson : CatalogLesson :=
  { type := .video
    videoDuration := 100
    requiredWatchTime := none
    quizQuestions := []
    passingScore := none }

/-- A catalog quiz lesson with a single 1-point question and the default
passing threshold. -/
def exQuizLesson : CatalogLesson :=
  { type := .quiz
    videoDuration := 0
    requiredWatchTime := none
    quizQuestions := [{ points := some 1, correctAnswer := .single "x" }]
    passingScore := none }

/-- A catalog text lesson. -/
def exTextLesson : CatalogLesson :=
  { type := .text
    videoDuration := 0
    requiredWatchTime := none
    quizQuestions := []
    passingScore := none }

/-- A fresh enrollment with no completed lessons. -/
def exEnrollment : Enrollment :=
  { status := .active
    completedLessons := []
    currentLesson := none
    completionPercentage := 0
    lastAccessedAt := 0
    completionDate := none
    certificateIssued := false
    certificateId := none }

/-! ### Simp characterizations of the operations -/

theorem updateWatchTime_watchTime (lesson : CatalogLesson) (p : LessonProgress)
    (s now : Nat) :
    (updateWatchTime lesson p s now).watchTime = max p.watchTime s := by
  simp only [updateWatchTime]
  split_ifs <;> rfl

theorem updateWatchTime_totalWatchTime (lesson : CatalogLesson) (p : LessonProgress)
    (s now : Nat) :
    (updateWatchTime lesson p s now).totalWatchTime = p.totalWatchTime + s := by
  simp only [updateWatchTime]
  split_ifs <;> rfl

theorem updateWatchTime_pct_video (lesson : CatalogLesson) (p : LessonProgress)
    (s now : Nat) (ht : lesson.type = LessonType.video)
    (hd : lesson.videoDuration ≠ 0) :
    (updateWatchTime lesson p s now).completionPercentage
      = min (jsRound (max p.watchTime s * 100) lesson.videoDuration) 100 := by
  simp only [updateWatchTime, if_pos (And.intro ht hd)]
  split_ifs <;> rfl

theorem updateWatchTime_pct_nonvideo (lesson : CatalogLesson) (p : LessonProgress)
    (s now : Nat) (ht : ¬ (lesson.type = LessonType.video ∧ lesson.videoDuration ≠ 0)) :
    (updateWatchTime lesson p s now).completionPercentage = p.completionPercentage := by
  simp only [updateWatchTime, if_neg ht]

/-- C1: `updateWatchTime` (the spec's recordWatchTime) with reported value
`s` sets `watchTime` to the max of the previous value and `s`, adds exactly
`s` to `totalWatchTime`, derives `completionPercentage =
min(100, round(100 × new watchTime / duration))` on a video lesson with
positive duration, and leaves `completionPercentage` unchanged on a
non-video lesson. -/
theorem C1_updateWatchTime_spec (lesson : CatalogLesson) (p : LessonProgress)
    (s now : Nat) :
    (updateWatchTime lesson p s now).watchTime = max p.watchTime s
    ∧ (updateWatchTime lesson p s now).totalWatchTime = p.totalWatchTime + s
    ∧ (lesson.type = LessonType.video → 0 < lesson.videoDuration →
        (updateWatchTime lesson p s now).completionPercentage
          = min 100 (jsRound (max p.watchTime s * 100) lesson.videoDuration))
    ∧ (lesson.type ≠ LessonType.video →
        (updateWatchTime lesson p s now).completionPercentage
          = p.completionPercentage) := by
  refine ⟨updateWatchTime_watchTime lesson p s now,
    updateWatchTime_totalWatchTime lesson p s now, ?_, ?_⟩
  · intro ht hd
    rw [updateWatchTime_pct_video lesson p s now ht (Nat.pos_iff_ne_zero.mp hd),
      Nat.min_comm]
  · intro ht
    exact updateWatchTime_pct_nonvideo lesson p s now (fun h => ht h.1)

/-- Witness for C1 at a concrete video lesson (duration 100, report 50) and
a concrete text lesson. -/
theorem C1_updateWatchTime_spec_witness :
    (updateWatchTime exVideoLesson (LessonProgress.fresh 0) 50 1).completionPercentage
      = min 100 (jsRound (max 0 50 * 100) exVideoLesson.videoDuration)
    ∧ (updateWatchTime exTextLesson (LessonProgress.fresh 0) 50 1).completionPercentage
      = (LessonProgress.fresh 0).completionPercentage :=
  ⟨(C1_updateWatchTime_spec exVideoLesson (LessonProgress.fresh 0) 50 1).2.2.1
      rfl (by decide),
   (C1_updateWatchTime_spec exTextLesson (LessonProgress.fresh 0) 50 1).2.2.2
      (by decide)⟩

theorem updateProgress_completedLessons (e : Enrollment) (t now : Nat) :
    (updateProgress e t now).completedLessons = e.completedLessons := by
  simp only [updateProgress]
  split_ifs <;> rfl

theorem markLessonCompleted_has_lesson (e : Enrollment) (lessonId : Nat)
    (w : Nat) (sc : Option Nat) (nl : Option Nat) (t now : Nat) :
    (markLessonCompleted e lessonId w sc nl t now).completedLessons.any
      (fun cl => cl.lesson = lessonId) = true := by
  simp only [markLessonCompleted]
  split_ifs with h
  · exact h
  · cases nl <;> simp [updateProgress_completedLessons, List.any_append]

/-- C2: `markLessonCompleted` is idempotent: a second call with the same
`lessonId` (whatever the other arguments) finds the lesson already in
`completedLessons` and returns the state of the first call unchanged. -/
theorem C2_markLessonCompleted_idempotent (e : Enrollment) (lessonId : Nat)
    (w1 w2 : Nat) (sc1 sc2 : Option Nat) (nl1 nl2 : Option Nat)
    (t1 t2 n1 n2 : Nat) :
    markLessonCompleted (markLessonCompleted e lessonId w1 sc1 nl1 t1 n1)
        lessonId w2 sc2 nl2 t2 n2
      = markLessonCompleted e lessonId w1 sc1 nl1 t1 n1 := by
  have hmem := markLessonCompleted_has_lesson e lessonId w1 sc1 nl1 t1 n1
  conv_lhs => rw [markLessonCompleted]
  simp [hmem]

/-- A completed-lesson entry for lesson `i` in the fixtures. -/
def exLessonEntry (i : Nat) : CompletedLesson :=
  { lesson := i, completedAt := 0, watchTime := 0, score := none }

/-- The fixture enrollment with 3 of 4 lessons completed. -/
def exEnrollment3 : Enrollment :=
  { exEnrollment with
    completedLessons := [exLessonEntry 1, exLessonEntry 2, exLessonEntry 3] }

/-- The fixture enrollment with 4 of 4 lessons completed. -/
def exEnrollment4 : Enrollment :=
  { exEnrollment with
    completedLessons :=
      [exLessonEntry 1, exLessonEntry 2, exLessonEntry 3, exLessonEntry 4] }

/-- C3: the completion recompute (`updateProgress`) sets
`completionPercentage = round(100 × n / t)` when the published-lesson count
`t` is positive and changes nothing when `t = 0`; when the recomputed
percentage reaches 100 on an active enrollment the status becomes
`completed` with `completionDate` set; a non-active status (in particular a
completed one) is never changed back; and concretely 3 of 4 lessons give 75
with status still active while 4 of 4 give 100, status completed, and
`completionDate` set. -/
theorem C3_updateProgress_spec (e : Enrollment) (t now : Nat) :
    (0 < t → (updateProgress e t now).completionPercentage
        = jsRound (e.completedLessons.length * 100) t)
    ∧ (t = 0 → updateProgress e t now = e)
    ∧ (0 < t → 100 ≤ jsRound (e.completedLessons.length * 100) t →
        e.status = EStatus.active →
        (updateProgress e t now).status = EStatus.completed
        ∧ (updateProgress e t now).completionDate = some now)
    ∧ (e.status ≠ EStatus.active →
        (updateProgress e t now).status = e.status
        ∧ (updateProgress e t now).completionDate = e.completionDate)
    ∧ (0 < t → jsRound (e.completedLessons.length * 100) t < 100 →
        (updateProgress e t now).status = e.status)
    ∧ ((updateProgress exEnrollment3 4 7).completionPercentage = 75
        ∧ (updateProgress exEnrollment3 4 7).status = EStatus.active)
    ∧ ((updateProgress exEnrollment4 4 7).completionPercentage = 100
        ∧ (updateProgress exEnrollment4 4 7).status = EStatus.completed
        ∧ (updateProgress exEnrollment4 4 7).completionDate = some 7) := by
  refine ⟨?_, ?_, ?_, ?_, ?_, by decide, by decide⟩
  · intro ht
    simp only [updateProgress, if_pos ht]
    split_ifs <;> rfl
  · intro ht
    subst ht
    simp [updateProgress]
  · intro ht hpct hst
    simp only [updateProgress, if_pos ht]
    rw [if_pos ⟨hpct, hst⟩]
    exact ⟨rfl, rfl⟩
  · intro hst
    simp only [updateProgress]
    split_ifs with h1 h2
    · exact absurd h2.2 hst
    · exact ⟨rfl, rfl⟩
    · exact ⟨rfl, rfl⟩
  · intro ht hpct
    simp only [updateProgress, if_pos ht]
    rw [if_neg (fun h => absurd h.1 (Nat.not_le.mpr hpct))]

/-- Witness for C3 on a concrete enrollment: 2 of 3 lessons completed on an
active enrollment, plus the degenerate 0-lesson course, plus the 100%
transition. -/
theorem C3_updateProgress_spec_witness :
    (updateProgress exEnrollment3 4 7).completionPercentage
      = jsRound (exEnrollment3.completedLessons.length * 100) 4
    ∧ updateProgress exEnrollment3 0 7 = exEnrollment3
    ∧ (updateProgress exEnrollment4 4 7).status = EStatus.completed
    ∧ (updateProgress exEnrollment4 4 7).completionDate = some 7
    ∧ (updateProgress { exEnrollment4 with status := EStatus.completed } 4 9).status
        = EStatus.completed
    ∧ (updateProgress exEnrollment3 4 7).status = exEnrollment3.status := by
  refine ⟨(C3_updateProgress_spec exEnrollment3 4 7).1 (by decide),
    (C3_updateProgress_spec exEnrollment3 0 7).2.1 rfl, ?_, ?_, ?_, ?_⟩
  · exact ((C3_updateProgress_spec exEnrollment4 4 7).2.2.1 (by decide) (by decide)
      (by decide)).1
  · exact ((C3_updateProgress_spec exEnrollment4 4 7).2.2.1 (by decide) (by decide)
      (by decide)).2
  · exact ((C3_updateProgress_spec { exEnrollment4 with status := EStatus.completed }
      4 9).2.2.2.1 (by decide)).1
  · exact (C3_updateProgress_spec exEnrollment3 4 7).2.2.2.2.1 (by decide) (by decide)

/-- C4 counterexample: for the question whose correct answer is the list
`["a", "b"]` (unset point value), the submission `["b", "a"]` contains
exactly the same values in a different order — a permutation, not equal as
lists — yet the grader marks it incorrect and awards a score of 0 instead
of the question's 1 point. -/
theorem C4_grading_order_counterexample :
    List.Perm ["b", "a"] ["a", "b"]
    ∧ AnswerValue.multiple ["b", "a"] ≠ AnswerValue.multiple ["a", "b"]
    ∧ (gradeAnswersList [{ points := none, correctAnswer := .multiple ["a", "b"] }]
        [.multiple ["b", "a"]]).map (fun g => g.isCorrect) = [false]
    ∧ quizScore [{ points := none, correctAnswer := .multiple ["a", "b"] }]
        [.multiple ["b", "a"]] = 0 := by
  refine ⟨?_, by decide, by decide, by decide⟩
  exact List.Perm.swap' "a" "b" (List.Perm.refl [])

theorem quizScore_foldl_shift (l : List GradedAnswer) (n : Nat) :
    l.foldl (fun total g => total + g.points) n
      = n + l.foldl (fun total g => total + g.points) 0 := by
  induction l generalizing n with
  | nil => simp
  | cons x xs ih =>
      simp only [List.foldl_cons]
      rw [ih (n + x.points), ih (0 + x.points)]
      omega

/-- C4 amended: the grader marks a submitted answer correct exactly when it
is structurally equal to the catalog's correct answer with list order
significant (`JSON.stringify` equality), and the score is the sum, over
index-paired (submission, question) pairs, of `points || 1` for the exactly
matching answers and 0 for the rest. -/
theorem C4_grading_structural_eq (questions : List QuizQuestion)
    (submitted : List AnswerValue) :
    (gradeAnswersList questions submitted).map (fun g => g.isCorrect)
      = (submitted.zip questions).map (fun pr => pr.1 == pr.2.correctAnswer)
    ∧ quizScore questions submitted
      = ((submitted.zip questions).map
          (fun pr => if pr.1 = pr.2.correctAnswer then jsOr pr.2.points 1 else 0)).sum := by
  induction questions generalizing submitted with
  | nil =>
      cases submitted <;> simp [gradeAnswersList, quizScore]
  | cons q qs ih =>
      cases submitted with
      | nil => simp [gradeAnswersList, quizScore]
      | cons a as =>
          have hih := ih as
          constructor
          · simpa [gradeAnswersList, answersEqual] using hih.1
          · have hsc : quizScore (q :: qs) (a :: as)
                = (if a = q.correctAnswer then jsOr q.points 1 else 0) + quizScore qs as := by
              simp only [quizScore, gradeAnswersList, List.foldl_cons]
              rw [quizScore_foldl_shift]
              simp [answersEqual]
            rw [hsc, hih.2]
            simp

theorem generateCertificateEndpoint_notCompleted (e : Enrollment) (enabled : Bool)
    (eid : String) (ts : Nat) (h : e.status ≠ EStatus.completed) :
    generateCertificateEndpoint e enabled eid ts = (e, CertResult.notCompleted) := by
  simp [generateCertificateEndpoint, h]

theorem generateCertificateEndpoint_notEnabled (e : Enrollment)
    (eid : String) (ts : Nat) (h : e.status = EStatus.completed) :
    generateCertificateEndpoint e false eid ts = (e, CertResult.notEnabled) := by
  simp [generateCertificateEndpoint, h]

theorem generateCertificateEndpoint_alreadyIssued (e : Enrollment)
    (eid : String) (ts : Nat) (h : e.status = EStatus.completed)
    (hc : e.certificateIssued = true) :
    generateCertificateEndpoint e true eid ts = (e, CertResult.alreadyIssued) := by
  simp [generateCertificateEndpoint, generateCertificate, h, hc]

theorem generateCertificateEndpoint_issues (e : Enrollment)
    (eid : String) (ts : Nat) (h : e.status = EStatus.completed)
    (hc : e.certificateIssued = false) :
    generateCertificateEndpoint e true eid ts
      = ({ e with
            certificateIssued := true
            certificateId := some (mkCertificateId ts eid) },
         CertResult.issued (mkCertificateId ts eid)) := by
  simp [generateCertificateEndpoint, generateCertificate, h, hc]

/-- Certificate ids embed the enrollment's own id as a fixed-length suffix,
so two enrollments with distinct (equal-length) document ids can never be
assigned the same certificate id, whatever the two timestamps are. -/
theorem mkCertificateId_inj (t1 t2 : Nat) (e1 e2 : String)
    (hlen : e1.length = e2.length) (hne : e1 ≠ e2) :
    mkCertificateId t1 e1 ≠ mkCertificateId t2 e2 := by
  intro h
  apply hne
  have hdata : ("CERT-" ++ toString t1 ++ "-").data ++ e1.data
      = ("CERT-" ++ toString t2 ++ "-").data ++ e2.data := by
    have h1 : (("CERT-" ++ toString t1 ++ "-") ++ e1).data
        = (("CERT-" ++ toString t2 ++ "-") ++ e2).data := by
      rw [show ("CERT-" ++ toString t1 ++ "-") ++ e1 = mkCertificateId t1 e1 by
            simp [mkCertificateId, String.append_assoc],
          show ("CERT-" ++ toString t2 ++ "-") ++ e2 = mkCertificateId t2 e2 by
            simp [mkCertificateId, String.append_assoc], h]
    simpa [String.data_append] using h1
  have hlen' : e1.data.length = e2.data.length := hlen
  have := (List.append_inj' hdata hlen').2
  exact congrArg String.mk this

/-- C5: the certificate endpoint is a no-op returning a not-eligible
outcome unless the enrollment is completed, not yet certificated, and the
course has certificates enabled; when eligible it sets
`certificateIssued = true` and assigns a certificate id that embeds the
enrollment's own id (hence unique across enrollments with distinct ids); a
second call returns already-issued and leaves the first id in place. -/
theorem C5_certificate_spec (e : Enrollment) (enabled : Bool) (eid : String)
    (ts : Nat) :
    (¬ (e.status = EStatus.completed ∧ e.certificateIssued = false ∧ enabled = true) →
        (generateCertificateEndpoint e enabled eid ts).1 = e
        ∧ ∀ cid, (generateCertificateEndpoint e enabled eid ts).2 ≠ CertResult.issued cid)
    ∧ (e.status = EStatus.completed → e.certificateIssued = false → enabled = true →
        (generateCertificateEndpoint e enabled eid ts).1.certificateIssued = true
        ∧ (generateCertificateEndpoint e enabled eid ts).1.certificateId
            = some (mkCertificateId ts eid)
        ∧ (generateCertificateEndpoint e enabled eid ts).2
            = CertResult.issued (mkCertificateId ts eid))
    ∧ (∀ t2 eid2, eid.length = eid2.length → eid ≠ eid2 →
        mkCertificateId ts eid ≠ mkCertificateId t2 eid2)
    ∧ (e.status = EStatus.completed → e.certificateIssued = false → enabled = true →
        ∀ eid2 ts2,
          (generateCertificateEndpoint
              (generateCertificateEndpoint e enabled eid ts).1 enabled eid2 ts2).1
            = (generateCertificateEndpoint e enabled eid ts).1
          ∧ (generateCertificateEndpoint
              (generateCertificateEndpoint e enabled eid ts).1 enabled eid2 ts2).2
            = CertResult.alreadyIssued
          ∧ (generateCertificateEndpoint e enabled eid ts).1.certificateId
            = some (mkCertificateId ts eid)) := by
  refine ⟨?_, ?_, fun t2 eid2 hl hn => mkCertificateId_inj ts t2 eid eid2 hl hn, ?_⟩
  · intro hnot
    by_cases hs : e.status = EStatus.completed
    · by_cases hen : enabled = true
      · have hc : e.certificateIssued = true := by
          cases hci : e.certificateIssued
          · exact absurd ⟨hs, hci, hen⟩ hnot
          · rfl
        subst hen
        rw [generateCertificateEndpoint_alreadyIssued e eid ts hs hc]
        exact ⟨rfl, fun cid => by simp⟩
      · have hen' : enabled = false := by cases enabled <;> simp_all
        subst hen'
        rw [generateCertificateEndpoint_notEnabled e eid ts hs]
        exact ⟨rfl, fun cid => by simp⟩
    · rw [generateCertificateEndpoint_notCompleted e enabled eid ts hs]
      exact ⟨rfl, fun cid => by simp⟩
  · intro hs hc hen
    subst hen
    rw [generateCertificateEndpoint_issues e eid ts hs hc]
    exact ⟨rfl, rfl, rfl⟩
  · intro hs hc hen eid2 ts2
    subst hen
    rw [generateCertificateEndpoint_issues e eid ts hs hc]
    dsimp only
    rw [generateCertificateEndpoint_alreadyIssued
      { e with
        certificateIssued := true
        certificateId := some (mkCertificateId ts eid) } eid2 ts2 hs rfl]
    exact ⟨rfl, rfl, rfl⟩

/-- Witness for C5: a non-completed enrollment is rejected, an eligible one
is issued `CERT-99-aaa`, ids of enrollments `aaa` and `bbb` differ, and a
second call reports already-issued. -/
theorem C5_certificate_spec_witness :
    (generateCertificateEndpoint exEnrollment true "aaa" 99).1 = exEnrollment
    ∧ (generateCertificateEndpoint { exEnrollment with status := EStatus.completed }
        true "aaa" 99).2 = CertResult.issued (mkCertificateId 99 "aaa")
    ∧ mkCertificateId 99 "aaa" ≠ mkCertificateId 99 "bbb"
    ∧ (generateCertificateEndpoint
        (generateCertificateEndpoint { exEnrollment with status := EStatus.completed }
          true "aaa" 99).1 true "aaa" 100).2 = CertResult.alreadyIssued := by
  refine ⟨((C5_certificate_spec exEnrollment true "aaa" 99).1 ?_).1,
    ((C5_certificate_spec { exEnrollment with status := EStatus.completed }
      true "aaa" 99).2.1 rfl rfl rfl).2.2,
    (C5_certificate_spec exEnrollment true "aaa" 99).2.2.1 99 "bbb" rfl (by decide),
    ((C5_certificate_spec { exEnrollment with status := EStatus.completed }
      true "aaa" 99).2.2.2 rfl rfl rfl "aaa" 100).2.1⟩
  intro hcontra
  exact absurd hcontra.1 (by decide)

theorem jsRound_mono_num (a b d : Nat) (h : a ≤ b) : jsRound a d ≤ jsRound b d :=
  Nat.div_le_div_right (by omega)

theorem updateWatchTime_completed_stays (lesson : CatalogLesson)
    (p : LessonProgress) (s now : Nat) (h : p.status = LStatus.completed) :
    (updateWatchTime lesson p s now).status = LStatus.completed := by
  simp only [updateWatchTime]
  split_ifs <;> simp_all

theorem updateWatchTime_pct_mono (lesson : CatalogLesson) (p : LessonProgress)
    (s1 n1 s2 n2 : Nat) :
    (updateWatchTime lesson p s1 n1).completionPercentage
      ≤ (updateWatchTime lesson (updateWatchTime lesson p s1 n1) s2 n2).completionPercentage := by
  by_cases h : lesson.type = LessonType.video ∧ lesson.videoDuration ≠ 0
  · rw [updateWatchTime_pct_video lesson p s1 n1 h.1 h.2,
      updateWatchTime_pct_video lesson (updateWatchTime lesson p s1 n1) s2 n2 h.1 h.2,
      updateWatchTime_watchTime lesson p s1 n1]
    exact min_le_min
      (jsRound_mono_num _ _ _ (Nat.mul_le_mul_right 100 (le_max_left _ _)))
      (le_refl 100)
  · rw [updateWatchTime_pct_nonvideo lesson (updateWatchTime lesson p s1 n1) s2 n2 h]

/-- Consecutive outputs of `updateWatchTime` calls: the completion
percentage never drops and a completed status is never left. -/
theorem updateWatchTime_step_chain (lesson : CatalogLesson) (p : LessonProgress)
    (s1 n1 s2 n2 : Nat) :
    (updateWatchTime lesson p s1 n1).completionPercentage
        ≤ (updateWatchTime lesson (updateWatchTime lesson p s1 n1) s2 n2).completionPercentage
    ∧ ((updateWatchTime lesson p s1 n1).status = LStatus.completed →
        (updateWatchTime lesson (updateWatchTime lesson p s1 n1) s2 n2).status
          = LStatus.completed) :=
  ⟨updateWatchTime_pct_mono lesson p s1 n1 s2 n2,
   fun h => updateWatchTime_completed_stays lesson _ s2 n2 h⟩

theorem watchTrace_chain_aux (lesson : CatalogLesson) (reports : List (Nat × Nat)) :
    ∀ (p : LessonProgress) (s n : Nat),
      List.Chain'
        (fun a b => a.completionPercentage ≤ b.completionPercentage
          ∧ (a.status = LStatus.completed → b.status = LStatus.completed))
        (watchTrace lesson (updateWatchTime lesson p s n) reports) := by
  induction reports with
  | nil => intro p s n; simp [watchTrace]
  | cons hd tl ih =>
      intro p s n
      obtain ⟨s2, n2⟩ := hd
      rw [watchTrace]
      rw [List.chain'_cons']
      refine ⟨?_, ih (updateWatchTime lesson p s n) s2 n2⟩
      intro b hb
      cases tl with
      | nil => simp [watchTrace] at hb
      | cons hd2 tl2 =>
          obtain ⟨s3, n3⟩ := hd2
          rw [watchTrace] at hb
          simp only [List.head?_cons, Option.mem_def, Option.some.injEq] at hb
          subst hb
          exact updateWatchTime_step_chain lesson (updateWatchTime lesson p s n) s2 n2 s3 n3

/-- C6: along any sequence of `updateWatchTime` calls on the same progress
record whose reported values are non-decreasing, the completion percentages
observed after each call form a non-decreasing sequence, and once a call
leaves the status `completed` every later call leaves it `completed`. -/
theorem C6_watchTrace_monotone (lesson : CatalogLesson) (p : LessonProgress)
    (reports : List (Nat × Nat))
    (hmono : List.Chain' (fun a b => a ≤ b) (reports.map Prod.fst)) :
    List.Chain'
      (fun a b => a.completionPercentage ≤ b.completionPercentage
        ∧ (a.status = LStatus.completed → b.status = LStatus.completed))
      (watchTrace lesson p reports) := by
  cases reports with
  | nil => simp [watchTrace]
  | cons hd tl =>
      obtain ⟨s, n⟩ := hd
      rw [watchTrace]
      rw [List.chain'_cons']
      refine ⟨?_, watchTrace_chain_aux lesson tl p s n⟩
      intro b hb
      cases tl with
      | nil => simp [watchTrace] at hb
      | cons hd2 tl2 =>
          obtain ⟨s2, n2⟩ := hd2
          rw [watchTrace] at hb
          simp only [List.head?_cons, Option.mem_def, Option.some.injEq] at hb
          subst hb
          exact updateWatchTime_step_chain lesson p s n s2 n2

/-- Witness for C6: three watch-time reports 10, 20, 80 on the 100-second
video lesson. -/
theorem C6_watchTrace_monotone_witness :
    List.Chain'
      (fun a b => a.completionPercentage ≤ b.completionPercentage
        ∧ (a.status = LStatus.completed → b.status = LStatus.completed))
      (watchTrace exVideoLesson (LessonProgress.fresh 0) [(10, 1), (20, 2), (80, 3)]) :=
  C6_watchTrace_monotone exVideoLesson (LessonProgress.fresh 0)
    [(10, 1), (20, 2), (80, 3)]
    (by simp [List.chain'_cons, List.chain'_singleton])

/-- A sequence of quiz attempts, each given by (graded answers, score,
time spent, wall-clock time), applied in order. -/
def runQuizAttempts (lesson : CatalogLesson) (p : LessonProgress) :
    List (List GradedAnswer × Nat × Nat × Nat) → LessonProgress
  | [] => p
  | (ans, sc, t, n) :: rest =>
      runQuizAttempts lesson (recordQuizAttempt lesson p ans sc t n) rest

/-- C7 counterexample: on the 1-point quiz with the default 70% threshold,
a full-score first attempt passes (status completed, percentage 100,
`passed = true`), but a second, zero-score attempt resets `passed` to
false — the source computes `passed` from the current attempt's percentage,
not from the best attempt — while status and completionPercentage do stay
at completed/100. -/
theorem C7_passed_reset_counterexample :
    (recordQuizAttempt exQuizLesson (LessonProgress.fresh 0) [] 1 0 1).quiz.passed = true
    ∧ (recordQuizAttempt exQuizLesson (LessonProgress.fresh 0) [] 1 0 1).status
        = LStatus.completed
    ∧ (recordQuizAttempt exQuizLesson (LessonProgress.fresh 0) [] 1 0 1).completionPercentage
        = 100
    ∧ (recordQuizAttempt exQuizLesson
        (recordQuizAttempt exQuizLesson (LessonProgress.fresh 0) [] 1 0 1)
        [] 0 0 2).quiz.passed = false
    ∧ (recordQuizAttempt exQuizLesson
        (recordQuizAttempt exQuizLesson (LessonProgress.fresh 0) [] 1 0 1)
        [] 0 0 2).status = LStatus.completed
    ∧ (recordQuizAttempt exQuizLesson
        (recordQuizAttempt exQuizLesson (LessonProgress.fresh 0) [] 1 0 1)
        [] 0 0 2).completionPercentage = 100 := by
  decide

theorem recordQuizAttempt_passed_char (lesson : CatalogLesson)
    (p : LessonProgress) (ans : List GradedAnswer) (score t now : Nat) :
    ((recordQuizAttempt lesson p ans score t now).quiz.passed = true)
      ↔ jsOr lesson.passingScore 70
          ≤ jsRound (score * 100) (totalPossibleScore lesson.quizQuestions) := by
  simp only [recordQuizAttempt]
  split_ifs <;> simp [ge_iff_le]

theorem recordQuizAttempt_status_char (lesson : CatalogLesson)
    (p : LessonProgress) (ans : List GradedAnswer) (sc t n : Nat) :
    (recordQuizAttempt lesson p ans sc t n).status
      = if jsOr lesson.passingScore 70
            ≤ jsRound (sc * 100) (totalPossibleScore lesson.quizQuestions) then
          LStatus.completed
        else if p.status = LStatus.notStarted then
          LStatus.inProgress
        else
          p.status := by
  simp only [recordQuizAttempt]
  split_ifs <;> simp_all [ge_iff_le]

theorem recordQuizAttempt_pct_char (lesson : CatalogLesson)
    (p : LessonProgress) (ans : List GradedAnswer) (sc t n : Nat) :
    (recordQuizAttempt lesson p ans sc t n).completionPercentage
      = if jsOr lesson.passingScore 70
            ≤ jsRound (sc * 100) (totalPossibleScore lesson.quizQuestions) then
          100
        else if p.status = LStatus.notStarted then
          min (jsRound (sc * 100) (totalPossibleScore lesson.quizQuestions)) 99
        else
          p.completionPercentage := by
  simp only [recordQuizAttempt]
  split_ifs <;> simp_all [ge_iff_le]

theorem recordQuizAttempt_completedAt_char (lesson : CatalogLesson)
    (p : LessonProgress) (ans : List GradedAnswer) (sc t n : Nat) :
    (recordQuizAttempt lesson p ans sc t n).completedAt
      = if jsOr lesson.passingScore 70
            ≤ jsRound (sc * 100) (totalPossibleScore lesson.quizQuestions) then
          some n
        else
          p.completedAt := by
  simp only [recordQuizAttempt]
  split_ifs <;> simp_all [ge_iff_le]

theorem recordQuizAttempt_pass (lesson : CatalogLesson) (p : LessonProgress)
    (ans : List GradedAnswer) (score t now : Nat)
    (hp : jsOr lesson.passingScore 70
      ≤ jsRound (score * 100) (totalPossibleScore lesson.quizQuestions)) :
    (recordQuizAttempt lesson p ans score t now).status = LStatus.completed
    ∧ (recordQuizAttempt lesson p ans score t now).completionPercentage = 100
    ∧ (recordQuizAttempt lesson p ans score t now).completedAt = some now := by
  rw [recordQuizAttempt_status_char, recordQuizAttempt_pct_char,
    recordQuizAttempt_completedAt_char]
  rw [if_pos hp, if_pos hp, if_pos hp]
  exact ⟨rfl, rfl, rfl⟩

theorem recordQuizAttempt_completed_stays (lesson : CatalogLesson)
    (p : LessonProgress) (ans : List GradedAnswer) (sc t n : Nat)
    (h : p.status = LStatus.completed) (h100 : p.completionPercentage = 100) :
    (recordQuizAttempt lesson p ans sc t n).status = LStatus.completed
    ∧ (recordQuizAttempt lesson p ans sc t n).completionPercentage = 100 := by
  rw [recordQuizAttempt_status_char, recordQuizAttempt_pct_char]
  split_ifs with h1 h2
  · exact ⟨rfl, rfl⟩
  · rw [h] at h2; exact absurd h2 (by decide)
  · exact ⟨h, h100⟩

theorem runQuizAttempts_completed_stays (lesson : CatalogLesson)
    (rest : List (List GradedAnswer × Nat × Nat × Nat)) :
    ∀ p : LessonProgress, p.status = LStatus.completed →
      p.completionPercentage = 100 →
      (runQuizAttempts lesson p rest).status = LStatus.completed
      ∧ (runQuizAttempts lesson p rest).completionPercentage = 100 := by
  induction rest with
  | nil => intro p h h100; exact ⟨h, h100⟩
  | cons hd tl ih =>
      intro p h h100
      obtain ⟨ans, sc, t, n⟩ := hd
      rw [runQuizAttempts]
      have hstep := recordQuizAttempt_completed_stays lesson p ans sc t n h h100
      exact ih (recordQuizAttempt lesson p ans sc t n) hstep.1 hstep.2

/-- C7 amended: an attempt whose percentage reaches the passing threshold
(`passingScore || 70`) puts the progress at status `completed`,
`completionPercentage = 100`, `completedAt` set, `passed = true`; every
sequence of subsequent attempts — failing ones included — leaves status
`completed` and `completionPercentage = 100`; but `passed` tracks the most
recent attempt: after any later attempt it is true exactly when that
attempt's own percentage reaches the threshold. -/
theorem C7_quiz_pass_terminal (lesson : CatalogLesson) (p : LessonProgress)
    (ans : List GradedAnswer) (score t now : Nat)
    (hp : jsOr lesson.passingScore 70
      ≤ jsRound (score * 100) (totalPossibleScore lesson.quizQuestions)) :
    ((recordQuizAttempt lesson p ans score t now).status = LStatus.completed
      ∧ (recordQuizAttempt lesson p ans score t now).completionPercentage = 100
      ∧ (recordQuizAttempt lesson p ans score t now).completedAt = some now
      ∧ (recordQuizAttempt lesson p ans score t now).quiz.passed = true)
    ∧ (∀ rest,
        (runQuizAttempts lesson (recordQuizAttempt lesson p ans score t now) rest).status
          = LStatus.completed
        ∧ (runQuizAttempts lesson (recordQuizAttempt lesson p ans score t now)
            rest).completionPercentage = 100)
    ∧ (∀ ans2 sc2 t2 n2,
        ((recordQuizAttempt lesson (recordQuizAttempt lesson p ans score t now)
            ans2 sc2 t2 n2).quiz.passed = true)
          ↔ jsOr lesson.passingScore 70
              ≤ jsRound (sc2 * 100) (totalPossibleScore lesson.quizQuestions)) := by
  have hpass := recordQuizAttempt_pass lesson p ans score t now hp
  refine ⟨⟨hpass.1, hpass.2.1, hpass.2.2,
      (recordQuizAttempt_passed_char lesson p ans score t now).mpr hp⟩, ?_, ?_⟩
  · intro rest
    exact runQuizAttempts_completed_stays lesson rest _ hpass.1 hpass.2.1
  · intro ans2 sc2 t2 n2
    exact recordQuizAttempt_passed_char lesson _ ans2 sc2 t2 n2

/-- Witness for C7 amended: full score on the 1-point quiz, then a failing
zero-score attempt. -/
theorem C7_quiz_pass_terminal_witness :
    ((recordQuizAttempt exQuizLesson (LessonProgress.fresh 0) [] 1 0 1).status
        = LStatus.completed
      ∧ (recordQuizAttempt exQuizLesson (LessonProgress.fresh 0) [] 1 0 1).quiz.passed
        = true)
    ∧ ((recordQuizAttempt exQuizLesson
          (recordQuizAttempt exQuizLesson (LessonProgress.fresh 0) [] 1 0 1)
          [] 0 0 2).quiz.passed = true
        ↔ jsOr exQuizLesson.passingScore 70
            ≤ jsRound (0 * 100) (totalPossibleScore exQuizLesson.quizQuestions)) := by
  have h := C7_quiz_pass_terminal exQuizLesson (LessonProgress.fresh 0) [] 1 0 1
    (by decide)
  exact ⟨⟨h.1.1, h.1.2.2.2⟩, h.2.2 [] 0 0 2⟩

/-- A progress record completed by watch time: the fixture for the C8
counterexample. -/
def exCompletedProgress : LessonProgress :=
  { status := .completed
    watchTime := 80
    totalWatchTime := 90
    completionPercentage := 80
    completedAt := some 5
    lastAccessedAt := 5
    bookmarks := []
    notes := []
    quiz := { attempts := [], highestScore := 0, bestAttempt := none, passed := false } }

/-- C8 counterexample: the explicit status update of `updateLessonProgress`
does not clear `completedAt` when it moves a completed progress back to
`in-progress`, so it breaks the `completedAt ↔ completed` half of the
invariant on a state that satisfies it. -/
theorem C8_status_update_counterexample :
    ProgressInv exCompletedProgress
    ∧ ¬ ProgressInv (updateLessonProgressStatus exCompletedProgress LStatus.inProgress 6) := by
  constructor
  · refine ⟨by simp [exCompletedProgress], by simp [exCompletedProgress], ?_⟩
    intro i h
    simp [exCompletedProgress] at h
  · intro hinv
    have hca : (updateLessonProgressStatus exCompletedProgress LStatus.inProgress 6).completedAt
        = some 5 := by
      simp [updateLessonProgressStatus, exCompletedProgress]
    have hst := hinv.1.mp (by simp [hca])
    simp [updateLessonProgressStatus, exCompletedProgress] at hst

theorem updateWatchTime_quiz (lesson : CatalogLesson) (p : LessonProgress)
    (s now : Nat) : (updateWatchTime lesson p s now).quiz = p.quiz := by
  simp only [updateWatchTime]
  split_ifs <;> rfl

theorem updateWatchTime_preserves_inv (lesson : CatalogLesson)
    (p : LessonProgress) (s now : Nat) (hp : ProgressInv p) :
    ProgressInv (updateWatchTime lesson p s now) := by
  obtain ⟨h1, h2, h3⟩ := hp
  refine ⟨?_, ?_, ?_⟩
  · simp only [updateWatchTime]
    split_ifs with hv hc hip <;> simp_all
  · rw [updateWatchTime_watchTime, updateWatchTime_totalWatchTime]
    omega
  · rw [updateWatchTime_quiz]
    exact h3

theorem attempts_numbering_append (l : List QuizAttempt) (a : QuizAttempt)
    (h3 : ∀ i (h : i < l.length), (l.get ⟨i, h⟩).attemptNumber = i + 1)
    (ha : a.attemptNumber = l.length + 1) :
    ∀ i (h : i < (l ++ [a]).length), ((l ++ [a]).get ⟨i, h⟩).attemptNumber = i + 1 := by
  intro i h
  rcases Nat.lt_or_ge i l.length with hlt | hge
  · rw [List.get_eq_getElem, List.getElem_append_left hlt]
    exact h3 i hlt
  · have hi : i = l.length := by
      simp only [List.length_append, List.length_cons, List.length_nil] at h
      omega
    subst hi
    have : (l ++ [a]).get ⟨l.length, h⟩ = a := by
      rw [List.get_eq_getElem]
      rw [List.getElem_append_right (le_refl l.length)]
      simp
    rw [this, ha]

theorem recordQuizAttempt_attempts (lesson : CatalogLesson) (p : LessonProgress)
    (ans : List GradedAnswer) (sc t n : Nat) :
    (recordQuizAttempt lesson p ans sc t n).quiz.attempts
      = p.quiz.attempts ++
        [{ attemptNumber := p.quiz.attempts.length + 1
           answers := ans
           score := sc
           percentage := jsRound (sc * 100) (totalPossibleScore lesson.quizQuestions)
           completedAt := n
           timeSpent := t }] := by
  simp only [recordQuizAttempt]
  split_ifs <;> rfl

theorem recordQuizAttempt_watch_fields (lesson : CatalogLesson)
    (p : LessonProgress) (ans : List GradedAnswer) (sc t n : Nat) :
    (recordQuizAttempt lesson p ans sc t n).watchTime = p.watchTime
    ∧ (recordQuizAttempt lesson p ans sc t n).totalWatchTime = p.totalWatchTime := by
  simp only [recordQuizAttempt]
  split_ifs <;> exact ⟨rfl, rfl⟩

theorem recordQuizAttempt_preserves_inv (lesson : CatalogLesson)
    (p : LessonProgress) (ans : List GradedAnswer) (sc t n : Nat)
    (hp : ProgressInv p) : ProgressInv (recordQuizAttempt lesson p ans sc t n) := by
  obtain ⟨h1, h2, h3⟩ := hp
  refine ⟨?_, ?_, ?_⟩
  · rw [recordQuizAttempt_status_char, recordQuizAttempt_completedAt_char]
    split_ifs with hpass hns
    · simp
    · have hnone : p.completedAt = none := by
        rcases hca : p.completedAt with _ | x
        · rfl
        · have hcomp := h1.mp (by simp [hca])
          rw [hns] at hcomp
          exact absurd hcomp (by decide)
      rw [hnone]
      simp
    · simpa using h1
  · rw [(recordQuizAttempt_watch_fields lesson p ans sc t n).1,
      (recordQuizAttempt_watch_fields lesson p ans sc t n).2]
    exact h2
  · rw [recordQuizAttempt_attempts]
    exact attempts_numbering_append p.quiz.attempts
      { attemptNumber := p.quiz.attempts.length + 1
        answers := ans
        score := sc
        percentage := jsRound (sc * 100) (totalPossibleScore lesson.quizQuestions)
        completedAt := n
        timeSpent := t } h3 rfl

/-- C8 amended: `updateWatchTime`, `recordQuizAttempt`, `addBookmark` and
`addNote` preserve the lesson-progress invariant (with `recordQuizAttempt`
appending exactly one attempt and the others leaving the attempt list
unchanged); the explicit status update of `updateLessonProgress` preserves
it only when the new status is `completed` or the progress was not yet
completed — moving a completed progress to a non-completed status leaves
`completedAt` set and breaks the invariant. -/
theorem C8_tracker_preserves_invariant (lesson : CatalogLesson)
    (p : LessonProgress) (hp : ProgressInv p) :
    (∀ s now, ProgressInv (updateWatchTime lesson p s now)
        ∧ (updateWatchTime lesson p s now).quiz.attempts = p.quiz.attempts)
    ∧ (∀ ans sc t n, ProgressInv (recordQuizAttempt lesson p ans sc t n)
        ∧ ∃ a, (recordQuizAttempt lesson p ans sc t n).quiz.attempts
            = p.quiz.attempts ++ [a])
    ∧ (∀ ts note now, ProgressInv (addBookmark p ts note now)
        ∧ (addBookmark p ts note now).quiz.attempts = p.quiz.attempts)
    ∧ (∀ c ts priv now, ProgressInv (addNote p c ts priv now)
        ∧ (addNote p c ts priv now).quiz.attempts = p.quiz.attempts)
    ∧ (∀ st now, (st = LStatus.completed ∨ p.status ≠ LStatus.completed) →
        ProgressInv (updateLessonProgressStatus p st now)) := by
  obtain ⟨h1, h2, h3⟩ := hp
  refine ⟨?_, ?_, ?_, ?_, ?_⟩
  · intro s now
    exact ⟨updateWatchTime_preserves_inv lesson p s now ⟨h1, h2, h3⟩,
      by rw [updateWatchTime_quiz]⟩
  · intro ans sc t n
    exact ⟨recordQuizAttempt_preserves_inv lesson p ans sc t n ⟨h1, h2, h3⟩,
      ⟨_, recordQuizAttempt_attempts lesson p ans sc t n⟩⟩
  · intro ts note now
    exact ⟨⟨h1, h2, h3⟩, rfl⟩
  · intro c ts priv now
    exact ⟨⟨h1, h2, h3⟩, rfl⟩
  · intro st now hst
    rcases hst with hst | hst
    · subst hst
      refine ⟨by simp [updateLessonProgressStatus], ?_, ?_⟩
      · simpa [updateLessonProgressStatus] using h2
      · simpa [updateLessonProgressStatus] using h3
    · have hnone : p.completedAt = none := by
        rcases hca : p.completedAt with _ | x
        · rfl
        · exact absurd (h1.mp (by simp [hca])) hst
      rcases hcomp : decide (st = LStatus.completed) with _ | _
      · have hne : ¬ st = LStatus.completed := of_decide_eq_false hcomp
        refine ⟨?_, ?_, ?_⟩
        · simp [updateLessonProgressStatus, hne, hnone]
        · simpa [updateLessonProgressStatus, hne] using h2
        · simpa [updateLessonProgressStatus, hne] using h3
      · have heq : st = LStatus.completed := of_decide_eq_true hcomp
        refine ⟨?_, ?_, ?_⟩
        · simp [updateLessonProgressStatus, heq]
        · simpa [updateLessonProgressStatus, heq] using h2
        · simpa [updateLessonProgressStatus, heq] using h3

/-- Witness for C8 amended: the fresh record satisfies the invariant and
the operations applied to it keep satisfying it. -/
theorem C8_tracker_preserves_invariant_witness :
    ProgressInv (updateWatchTime exVideoLesson (LessonProgress.fresh 0) 50 1)
    ∧ ProgressInv (updateLessonProgressStatus (LessonProgress.fresh 0) LStatus.completed 2) := by
  have hfresh : ProgressInv (LessonProgress.fresh 0) := by
    refine ⟨by simp [LessonProgress.fresh], by simp [LessonProgress.fresh], ?_⟩
    intro i h
    simp [LessonProgress.fresh] at h
  exact ⟨((C8_tracker_preserves_invariant exVideoLesson (LessonProgress.fresh 0) hfresh).1
      50 1).1,
    (C8_tracker_preserves_invariant exVideoLesson (LessonProgress.fresh 0) hfresh).2.2.2.2
      LStatus.completed 2 (Or.inl rfl)⟩

/-- C9: on a user with no progress records for the course,
`getUserCourseProgress` does return 0 completed lessons and overall
progress 0 (also when the course has 0 published lessons), but the
most-recent-access value it returns is `Math.max()` of an empty spread,
i.e. `-Infinity` — not a well-defined timestamp, contradicting the spec's
requirement of a zero-valued summary. -/
theorem C9_empty_rollup (t : Nat) :
    (getUserCourseProgress t []).completedLessons = 0
    ∧ (getUserCourseProgress t []).overallProgress = 0
    ∧ (getUserCourseProgress t []).totalLessons = t
    ∧ (getUserCourseProgress t []).lastAccessedAt = JsMaxVal.negInf := by
  refine ⟨rfl, ?_, rfl, rfl⟩
  simp only [getUserCourseProgress, List.filter_nil, List.length_nil, List.map_nil]
  split_ifs with h
  · have ht : 2 * (0 * 100) + t = t := by ring
    rw [jsRound, ht]
    exact Nat.div_eq_of_lt (by omega)
  · rfl

/-- C10: a failing quiz attempt (percentage strictly below the passing
threshold, with a non-empty question bank) on a not-started progress moves
it to `in-progress` with `completionPercentage = min(percentage, 99)`; a
failing attempt can only show 100 if the percentage was already 100; and
on an in-progress or completed record it leaves `completionPercentage`
untouched. -/
theorem C10_failing_attempt (lesson : CatalogLesson) (p : LessonProgress)
    (ans : List GradedAnswer) (sc t n : Nat)
    (htot : 0 < totalPossibleScore lesson.quizQuestions)
    (hfail : jsRound (sc * 100) (totalPossibleScore lesson.quizQuestions)
      < jsOr lesson.passingScore 70) :
    (p.status = LStatus.notStarted →
        (recordQuizAttempt lesson p ans sc t n).status = LStatus.inProgress
        ∧ (recordQuizAttempt lesson p ans sc t n).completionPercentage
            = min (jsRound (sc * 100) (totalPossibleScore lesson.quizQuestions)) 99)
    ∧ ((recordQuizAttempt lesson p ans sc t n).completionPercentage = 100 →
        p.completionPercentage = 100)
    ∧ (p.status = LStatus.inProgress ∨ p.status = LStatus.completed →
        (recordQuizAttempt lesson p ans sc t n).completionPercentage
          = p.completionPercentage) := by
  have hnp : ¬ jsOr lesson.passingScore 70
      ≤ jsRound (sc * 100) (totalPossibleScore lesson.quizQuestions) :=
    Nat.not_le.mpr hfail
  refine ⟨?_, ?_, ?_⟩
  · intro hns
    rw [recordQuizAttempt_status_char, recordQuizAttempt_pct_char,
      if_neg hnp, if_pos hns, if_neg hnp, if_pos hns]
    exact ⟨rfl, rfl⟩
  · rw [recordQuizAttempt_pct_char, if_neg hnp]
    split_ifs with hns
    · intro hmin
      have h99 : min (jsRound (sc * 100) (totalPossibleScore lesson.quizQuestions)) 99
          ≤ 99 := min_le_right _ _
      omega
    · exact id
  · intro hst
    have hns : ¬ p.status = LStatus.notStarted := by
      rcases hst with h | h <;> simp [h]
    rw [recordQuizAttempt_pct_char, if_neg hnp, if_neg hns]

/-- Witness for C10: a zero-score attempt on the 1-point quiz from a fresh
record. -/
theorem C10_failing_attempt_witness :
    (recordQuizAttempt exQuizLesson (LessonProgress.fresh 0) [] 0 0 1).status
      = LStatus.inProgress
    ∧ (recordQuizAttempt exQuizLesson (LessonProgress.fresh 0) [] 0 0 1).completionPercentage
      = min (jsRound (0 * 100) (totalPossibleScore exQuizLesson.quizQuestions)) 99 :=
  (C10_failing_attempt exQuizLesson (LessonProgress.fresh 0) [] 0 0 1
    (by decide) (by decide)).1 rfl

end LMS
